import Mathlib

/-!
Verification development for the streaming relay + handoff extraction service
(`src/index.js`, `src/unnamed/part_000`, `src/unnamed/part_001`).

Text is modelled as `List Char`.  JavaScript string scanning
(`String.prototype.indexOf`), the specific regular expressions used by the
extractors, `JSON.parse` (on the subset of JSON the service exchanges),
`Buffer.from(_, "base64")` (on ASCII content) and the string `replace`/`trim`
operations are embedded as executable Lean functions.  The HTTP handlers named
by the claims are embedded as pure functions from the request-relevant inputs
(the upstream outcome, the decoded stream units, the notification routing
configuration and a notification-transport success flag) to the client-visible
outcome, the list of notification-transport invocations and the keep-alive
timer status.  Console logging is a side effect with no client-visible or
state-visible consequence and is not represented.
-/

/-! ## Basic text machinery -/

/-- Shorthand turning a string literal into the `List Char` text representation. -/
def toL (s : String) : List Char := s.toList

/-- `startsWithSeq pat s` holds when `pat` is a prefix of `s` (character-wise). -/
def startsWithSeq : List Char → List Char → Bool
  | [], _ => true
  | _ :: _, [] => false
  | p :: ps, c :: cs => p == c && startsWithSeq ps cs

/-- Leftmost occurrence search, the model of JavaScript `s.indexOf(pat)`:
`splitFirstSeq pat s = some (pre, suf)` when `s = pre ++ pat ++ suf` with the
occurrence of `pat` being the leftmost one, and `none` when `pat` does not
occur in `s` (for nonempty `pat`). -/
def splitFirstSeq (pat : List Char) : List Char → Option (List Char × List Char)
  | [] => if startsWithSeq pat [] then some ([], []) else none
  | c :: rest =>
    if startsWithSeq pat (c :: rest) then some ([], (c :: rest).drop pat.length)
    else
      match splitFirstSeq pat rest with
      | some (pre, suf) => some (c :: pre, suf)
      | none => none

/-- `containsSeq pat s` holds when `pat` occurs somewhere in `s`. -/
def containsSeq (pat : List Char) : List Char → Bool
  | [] => startsWithSeq pat []
  | c :: rest => startsWithSeq pat (c :: rest) || containsSeq pat rest

/-- The whitespace class used by the embedded `\s`, `trim` and `JSON.parse`
models (the JavaScript classes also contain rarer unicode whitespace, which
none of the texts of interest use). -/
def isWS (c : Char) : Bool := c = ' ' || c = '\n' || c = '\t' || c = '\r'

/-- Model of JavaScript `String.prototype.trim`. -/
def trimWS (l : List Char) : List Char :=
  ((l.dropWhile isWS).reverse.dropWhile isWS).reverse

/-- Replace the first occurrence of `pat` in `s` with nothing — the model of
JavaScript `s.replace(pat, "")` for a plain (non-regex, non-global) pattern. -/
def removeFirstSeq (pat s : List Char) : List Char :=
  match splitFirstSeq pat s with
  | some (pre, suf) => pre ++ suf
  | none => s

/-- The triple-backtick fence marker. -/
def fence : List Char := ['`', '`', '`']

/-- Case-insensitive prefix test (for the `/i`-flagged regexes of
`extractHandoff` in `src/index.js` / `src/unnamed/part_001`). -/
def ciStartsWith (pat s : List Char) : Bool :=
  startsWithSeq (pat.map Char.toLower) (s.map Char.toLower)

/-! ## Fence Sanitizer -/

/--
The stateful streaming Fence Sanitizer, from `src/index.js` lines 314–344 (and
verbatim copies in `src/unnamed/part_000` lines 853–885 and
`src/unnamed/part_001` lines 275–305):

```
let inFencedBlock = false;
function sanitizeDeltaText(chunk) {
  let out = ""; let i = 0;
  while (i < chunk.length) {
    if (!inFencedBlock) {
      const start = chunk.indexOf("```", i);
      if (start === -1) { out += chunk.slice(i); break; }
      out += chunk.slice(i, start);
      inFencedBlock = true; i = start + 3;
    } else {
      const end = chunk.indexOf("```", i);
      if (end === -1) { return out; }
      inFencedBlock = false; i = end + 3;
    }
  }
  return out;
}
```

The loop repeatedly looks for the leftmost occurrence of the marker from the
current index; that scan is embedded here as a character-by-character
recursion in which the three-backtick head pattern is tested first (which is
exactly leftmost search: out of a block a non-marker character is copied to
the output, inside a block it is swallowed, and a marker toggles the state).
The closure variable `inFencedBlock` is the explicit `Bool` state, taken as
input and returned alongside the output. -/
def sanitizeDeltaText : Bool → List Char → List Char × Bool
  | inB, '`' :: '`' :: '`' :: rest => sanitizeDeltaText (!inB) rest
  | true, _ :: rest => sanitizeDeltaText true rest
  | false, c :: rest =>
    let r := sanitizeDeltaText false rest
    (c :: r.1, r.2)
  | inB, [] => ([], inB)

/-- Chunk-by-chunk driving of the Fence Sanitizer with the in-block state
carried between calls, concatenating the per-chunk outputs.  This is how the
streaming loop applies `sanitizeDeltaText` to successive text fragments. -/
def sanitizeChunks (st : Bool) : List (List Char) → List Char × Bool
  | [] => ([], st)
  | c :: cs =>
    let r := sanitizeDeltaText st c
    let q := sanitizeChunks r.2 cs
    (r.1 ++ q.1, q.2)

/-- `noTrailTick l`: the chunk `l` does not end with a backtick, so a chunk
boundary placed after `l` cannot cut a ``` marker in half. -/
def noTrailTick (l : List Char) : Prop := l = [] ∨ l.getLast? ≠ some '`'

/-- `headNotTick l`: the text `l` does not start with a backtick. -/
def headNotTick (l : List Char) : Prop := l = [] ∨ l.head? ≠ some '`'

instance noTrailTickDec (l : List Char) : Decidable (noTrailTick l) :=
  inferInstanceAs (Decidable (l = [] ∨ l.getLast? ≠ some '`'))

instance headNotTickDec (l : List Char) : Decidable (headNotTick l) :=
  inferInstanceAs (Decidable (l = [] ∨ l.head? ≠ some '`'))

/-! ## JSON values and the `JSON.parse` model -/

/-- JSON values as exchanged by the service.  Numbers are integers: the
handoff payloads this service parses use integer quantities, and the claims
never rest on fractional or exponent forms (which this embedded subset of
`JSON.parse` rejects rather than mis-parses). -/
inductive Json where
  | null
  | bool (b : Bool)
  | num (n : Int)
  | str (s : String)
  | arr (elems : List Json)
  | obj (fields : List (String × Json))

/-- Property read `o?.k` on a parsed JSON value: `none` models `undefined`.
For duplicate keys `JSON.parse` keeps the last occurrence, hence the reverse
lookup. -/
def jGet : Json → String → Option Json
  | .obj fs, k => fs.reverse.lookup k
  | _, _ => none

/-- JavaScript truthiness of a parsed JSON value. -/
def jtruthy : Json → Bool
  | .null => false
  | .bool b => b
  | .num n => n != 0
  | .str s => s != ""
  | .arr _ => true
  | .obj _ => true

/-- Truthiness of `o?.k`, the test `obj?.kind && obj?.payload` uses. -/
def truthyField (o : Json) (k : String) : Bool :=
  match jGet o k with
  | some v => jtruthy v
  | none => false

/-- Skip JSON whitespace. -/
def skipWS (s : List Char) : List Char := s.dropWhile isWS

/-- One escaped character inside a JSON string literal (the `\uXXXX` form is
outside the embedded subset and is rejected). -/
def unescapeChar : Char → Option Char
  | 'n' => some '\n'
  | 't' => some '\t'
  | 'r' => some '\r'
  | 'b' => some (Char.ofNat 8)
  | 'f' => some (Char.ofNat 12)
  | '"' => some '"'
  | '\\' => some '\\'
  | '/' => some '/'
  | _ => none

/-- Body of a JSON string literal after the opening quote; returns the decoded
characters and the remainder after the closing quote. -/
def parseStrBody : List Char → Option (List Char × List Char)
  | [] => none
  | '"' :: r => some ([], r)
  | '\\' :: c :: r =>
    match unescapeChar c with
    | some u =>
      match parseStrBody r with
      | some (cs, r') => some (u :: cs, r')
      | none => none
    | none => none
  | c :: r =>
    match parseStrBody r with
    | some (cs, r') => some (c :: cs, r')
    | none => none

/-- A nonempty digit run as a natural number plus the remainder. -/
def parseDigits (s : List Char) : Option (Nat × List Char) :=
  let ds := s.takeWhile Char.isDigit
  if ds.isEmpty then none
  else some (ds.foldl (fun acc c => acc * 10 + (c.toNat - 48)) 0, s.dropWhile Char.isDigit)

/-- A JSON integer token (optional minus sign then digits). -/
def parseIntTok : List Char → Option (Json × List Char)
  | '-' :: r =>
    match parseDigits r with
    | some (n, r') => some (.num (-(n : Int)), r')
    | none => none
  | s =>
    match parseDigits s with
    | some (n, r') => some (.num (n : Int), r')
    | none => none

mutual

/-- Recursive-descent value parser behind the `JSON.parse` model; the fuel
argument bounds the recursion depth and is instantiated generously by
`jparse`. -/
def parseVal : Nat → List Char → Option (Json × List Char)
  | 0, _ => none
  | fuel + 1, s =>
    match skipWS s with
    | 'n' :: 'u' :: 'l' :: 'l' :: r => some (.null, r)
    | 't' :: 'r' :: 'u' :: 'e' :: r => some (.bool true, r)
    | 'f' :: 'a' :: 'l' :: 's' :: 'e' :: r => some (.bool false, r)
    | '"' :: r =>
      match parseStrBody r with
      | some (cs, r') => some (.str (String.mk cs), r')
      | none => none
    | '[' :: r => parseElems fuel r
    | '{' :: r => parseMembers fuel r
    | r => parseIntTok r

/-- Elements of a JSON array after the opening bracket. -/
def parseElems : Nat → List Char → Option (Json × List Char)
  | 0, _ => none
  | fuel + 1, s =>
    match skipWS s with
    | ']' :: r => some (.arr [], r)
    | s' =>
      match parseVal fuel s' with
      | some (v, r) =>
        match parseElemsRest fuel r with
        | some (vs, r') => some (.arr (v :: vs), r')
        | none => none
      | none => none

/-- The `, value`* tail of a JSON array, up to the closing bracket. -/
def parseElemsRest : Nat → List Char → Option (List Json × List Char)
  | 0, _ => none
  | fuel + 1, s =>
    match skipWS s with
    | ']' :: r => some ([], r)
    | ',' :: r =>
      match parseVal fuel r with
      | some (v, r') =>
        match parseElemsRest fuel r' with
        | some (vs, r'') => some (v :: vs, r'')
        | none => none
      | none => none
    | _ => none

/-- One `"key": value` member of a JSON object. -/
def parseMember : Nat → List Char → Option ((String × Json) × List Char)
  | 0, _ => none
  | fuel + 1, s =>
    match skipWS s with
    | '"' :: r =>
      match parseStrBody r with
      | some (key, r1) =>
        match skipWS r1 with
        | ':' :: r2 =>
          match parseVal fuel r2 with
          | some (v, r3) => some ((String.mk key, v), r3)
          | none => none
        | _ => none
      | none => none
    | _ => none

/-- Members of a JSON object after the opening brace. -/
def parseMembers : Nat → List Char → Option (Json × List Char)
  | 0, _ => none
  | fuel + 1, s =>
    match skipWS s with
    | '}' :: r => some (.obj [], r)
    | s' =>
      match parseMember fuel s' with
      | some (kv, r) =>
        match parseMembersRest fuel r with
        | some (ms, r') => some (.obj (kv :: ms), r')
        | none => none
      | none => none

/-- The `, "key": value`* tail of a JSON object, up to the closing brace. -/
def parseMembersRest : Nat → List Char → Option (List (String × Json) × List Char)
  | 0, _ => none
  | fuel + 1, s =>
    match skipWS s with
    | '}' :: r => some ([], r)
    | ',' :: r =>
      match parseMember fuel r with
      | some (kv, r') =>
        match parseMembersRest fuel r' with
        | some (ms, r'') => some (kv :: ms, r'')
        | none => none
      | none => none
    | _ => none

end

/-- The model of `JSON.parse`: parse one value, allow surrounding whitespace,
require the input to be exhausted; on any violation the JavaScript call throws
and the model returns `none`. -/
def jparse (s : List Char) : Option Json :=
  match parseVal (2 * s.length + 8) s with
  | some (v, rest) => if (rest.dropWhile isWS).isEmpty then some v else none
  | none => none

/-! ## Base64 (the model of `Buffer.from(b64, "base64").toString("utf8")`) -/

/-- Value of a base64 alphabet character. -/
def b64Val (c : Char) : Option Nat :=
  if 'A' ≤ c && c ≤ 'Z' then some (c.toNat - 65)
  else if 'a' ≤ c && c ≤ 'z' then some (c.toNat - 97 + 26)
  else if '0' ≤ c && c ≤ '9' then some (c.toNat - 48 + 52)
  else if c = '+' then some 62
  else if c = '/' then some 63
  else none

/-- Membership in the character class `[A-Za-z0-9+/=]` of the
`[[HANDOFF:...]]` regex. -/
def isB64Char (c : Char) : Bool := (b64Val c).isSome || c = '='

/-- Base64 decoding to bytes, on well-formed groups of four (with standard
`=` padding in the final group, and tolerating the unpadded final groups that
Node also accepts).  Inputs outside this subset return `none`. -/
def decodeB64Core : List Char → Option (List Nat)
  | [] => some []
  | [a, b] =>
    match b64Val a, b64Val b with
    | some va, some vb => some [va * 4 + vb / 16]
    | _, _ => none
  | [a, b, '='] =>
    match b64Val a, b64Val b with
    | some va, some vb => some [va * 4 + vb / 16]
    | _, _ => none
  | [a, b, c] =>
    match b64Val a, b64Val b, b64Val c with
    | some va, some vb, some vc => some [va * 4 + vb / 16, (vb % 16) * 16 + vc / 4]
    | _, _, _ => none
  | [a, b, '=', '='] =>
    match b64Val a, b64Val b with
    | some va, some vb => some [va * 4 + vb / 16]
    | _, _ => none
  | [a, b, c, '='] =>
    match b64Val a, b64Val b, b64Val c with
    | some va, some vb, some vc => some [va * 4 + vb / 16, (vb % 16) * 16 + vc / 4]
    | _, _, _ => none
  | a :: b :: c :: d :: rest =>
    match b64Val a, b64Val b, b64Val c, b64Val d with
    | some va, some vb, some vc, some vd =>
      match decodeB64Core rest with
      | some bs =>
        some ((va * 4 + vb / 16) :: ((vb % 16) * 16 + vc / 4) :: ((vc % 4) * 64 + vd) :: bs)
      | none => none
    | _, _, _, _ => none
  | _ => none

/-- `Buffer.from(b64, "base64").toString("utf8")` for ASCII content: each
decoded byte below 128 is one character. -/
def decodeB64Str (s : List Char) : Option (List Char) :=
  match decodeB64Core s with
  | some bs => if bs.all (· < 128) then some (bs.map Char.ofNat) else none
  | none => none

/-! ## Grammar Registry: the `extractHandoff` of `src/unnamed/part_000`
(second iteration, lines 729–761) -/

/--
The capture of a lazy block regex `/OPEN\s*([\s\S]*?)\s*CLOSE/`: the match
starts at the leftmost occurrence of the literal `OPEN`; the lazy group plus
its surrounding greedy `\s*` make the group the text up to the *first*
occurrence of `CLOSE` after it, with surrounding whitespace stripped.  (If the
first `OPEN` has no `CLOSE` after it, no later start position can complete a
match either: for the patterns used here a later viable start would itself put
a `CLOSE` occurrence after the first `OPEN`.) -/
def lazyBlockCapture (openTag closeTag s : List Char) : Option (List Char) :=
  match splitFirstSeq openTag s with
  | none => none
  | some (_, rest) =>
    match splitFirstSeq closeTag rest with
    | none => none
    | some (mid, _) => some (trimWS mid)

/-- One delimited-block grammar of `extractHandoff` (part_000 lines 732–748):
locate the block, require a nonempty capture (`m && m[1]`), `JSON.parse` it
(a parse failure is swallowed by `catch {}`), and accept the parsed object
only when `obj?.kind && obj?.payload` is truthy; otherwise fall through. -/
def tryHandoffBlock (openTag closeTag raw : List Char) : Option Json :=
  match lazyBlockCapture openTag closeTag raw with
  | none => none
  | some grp =>
    if grp.isEmpty then none
    else
      match jparse grp with
      | some obj =>
        if truthyField obj "kind" && truthyField obj "payload" then some obj else none
      | none => none

/-- The `/\[\[HANDOFF:([A-Za-z0-9+/=]+)\]\]/` scan (part_000 lines 751): at
each start position try the literal `[[HANDOFF:`, then a maximal nonempty run
of class characters, then `]]`; on failure the engine advances one position. -/
def findHandoffToken : List Char → Option (List Char)
  | [] => none
  | c :: rest =>
    if startsWithSeq (toL "[[HANDOFF:") (c :: rest) then
      let after := (c :: rest).drop 10
      let run := after.takeWhile isB64Char
      let rem := after.dropWhile isB64Char
      if !run.isEmpty && startsWithSeq (toL "]]") rem then some run
      else findHandoffToken rest
    else findHandoffToken rest

/--
`extractHandoff` from `src/unnamed/part_000` lines 729–761 (the three-format
variant used by the stream handler of that iteration):

1. ```` ```handoff ... ``` ```` block;
2. `<handoff> ... </handoff>` block;
3. `[[HANDOFF:base64(json)]]` inline token;

each parsed as JSON and accepted only with truthy `kind` and `payload`; the
whole parsed object is returned.  `if (!raw) return null` is the empty-text
guard. -/
def extractHandoff_p0 (raw : List Char) : Option Json :=
  if raw.isEmpty then none
  else
    match tryHandoffBlock (toL "```handoff") fence raw with
    | some obj => some obj
    | none =>
      match tryHandoffBlock (toL "<handoff>") (toL "</handoff>") raw with
      | some obj => some obj
      | none =>
        match findHandoffToken raw with
        | none => none
        | some b64 =>
          match decodeB64Str b64 with
          | none => none
          | some js =>
            match jparse js with
            | some obj =>
              if truthyField obj "kind" && truthyField obj "payload" then some obj else none
            | none => none

/-! ## Grammar Registry: the `extractHandoff` of `src/index.js` lines 197–224
(also `src/unnamed/part_001` lines 158–185) -/

/-- A handoff record of the tagged/generic-JSON extractor: `kind`, parsed
`payload`, and the raw matched text (`m[0]`) used to scrub the reply. -/
structure IdxHandoff where
  kind : List Char
  payload : Json
  raw : List Char

/-- The alternation `(reservation|order)` under the `/i` flag; returns the
lowercased kind (`tagged[1].toLowerCase()`) and the matched length. -/
def matchKindWord (t : List Char) : Option (List Char × Nat) :=
  if ciStartsWith (toL "reservation") t then some (toL "reservation", 11)
  else if ciStartsWith (toL "order") t then some (toL "order", 5)
  else none

/-- The scan of `/```handoff:(reservation|order)\s*([\s\S]*?)```/i`: at each
start position try the literal tag (case-insensitively), the kind alternation,
greedy `\s*`, then the lazy body up to the first closing ``` marker; on
failure the engine advances one position.  Returns kind, body capture and the
raw matched text. -/
def findTagged : List Char → Option (List Char × List Char × List Char)
  | [] => none
  | c :: rest =>
    if ciStartsWith (toL "```handoff:") (c :: rest) then
      let t := (c :: rest).drop 11
      match matchKindWord t with
      | some (k, klen) =>
        let u := t.drop klen
        let ws := u.takeWhile isWS
        let v := u.drop ws.length
        match splitFirstSeq fence v with
        | some (body, _) =>
          some (k, body, (c :: rest).take (11 + klen + ws.length + body.length + 3))
        | none => findTagged rest
      | none => findTagged rest
    else findTagged rest

/-- Successive matches of `/```(?:json)?\s*([\s\S]*?)```/gi` (`matchAll`):
find the next ``` marker, optionally consume a case-insensitive `json` tag and
greedy whitespace, capture lazily up to the next ``` marker, and continue
after it; each element is `(capture, raw match)`. -/
def genericBlocks : Nat → List Char → List (List Char × List Char)
  | 0, _ => []
  | fuel + 1, s =>
    match splitFirstSeq fence s with
    | none => []
    | some (_, rest) =>
      let hasTag := ciStartsWith (toL "json") rest
      let r1 := if hasTag then rest.drop 4 else rest
      let ws := r1.takeWhile isWS
      let r2 := r1.drop ws.length
      match splitFirstSeq fence r2 with
      | none => []
      | some (body, rest2) =>
        (body, fence ++ (if hasTag then rest.take 4 else []) ++ ws ++ body ++ fence) ::
          genericBlocks fuel rest2

/-- `payload?.items` is an array with at least one element. -/
def isOrderPayload (p : Json) : Bool :=
  match jGet p "items" with
  | some (.arr l) => !l.isEmpty
  | _ => false

/-- `!!(payload?.party_size && payload?.date && payload?.time)`. -/
def isReservationPayload (p : Json) : Bool :=
  truthyField p "party_size" && truthyField p "date" && truthyField p "time"

/-- The loop over generic fenced blocks: `JSON.parse` each capture (skipping
invalid JSON), classify heuristically, first hit wins. -/
def firstClassified : List (List Char × List Char) → Option IdxHandoff
  | [] => none
  | (body, raw) :: rest =>
    match jparse body with
    | some payload =>
      if isOrderPayload payload then some ⟨toL "order", payload, raw⟩
      else if isReservationPayload payload then some ⟨toL "reservation", payload, raw⟩
      else firstClassified rest
    | none => firstClassified rest

/-- `extractHandoff` from `src/index.js` lines 197–224: the tagged
```` ```handoff:kind ```` block first (a JSON parse failure there logs and
falls through), then any ```` ```json ```` / bare fenced block classified by
the `items` / `party_size,date,time` heuristics. -/
def extractHandoff_idx (text : List Char) : Option IdxHandoff :=
  if text.isEmpty then none
  else
    match findTagged text with
    | some (k, body, raw) =>
      match jparse body with
      | some payload => some ⟨k, payload, raw⟩
      | none => firstClassified (genericBlocks (text.length + 1) text)
    | none => firstClassified (genericBlocks (text.length + 1) text)

/-! ## Response post-processing -/

/-- Global removal of complete fenced blocks, the model of
`s.replace(/```[\s\S]*?```/g, "")`: repeatedly remove the leftmost
``` ... ``` pair; an unpaired trailing marker matches nothing and the
remainder is kept verbatim. -/
def stripFencedAll : Nat → List Char → List Char
  | 0, s => s
  | fuel + 1, s =>
    match splitFirstSeq fence s with
    | none => s
    | some (pre, rest) =>
      match splitFirstSeq fence rest with
      | none => s
      | some (_, rest2) => pre ++ stripFencedAll fuel rest2

/-- `const stripFenced = (s="") => s.replace(/```[\s\S]*?```/g, "").trim()`. -/
def stripFenced (s : List Char) : List Char := trimWS (stripFencedAll (s.length + 1) s)

/-! ## Stream relay machinery -/

/-- One decoded upstream stream unit: the text fragment values found in its
`delta.content` / `message.content` arrays, in order, and whether its
(coalesced) metadata carried `handoff === true`. -/
structure StreamUnitM where
  frags : List (List Char)
  signal : Bool

/-- Events written to the client channel. -/
inductive SseEvent where
  | dataEvt (frags : List (List Char))
  | errEvent (msg : List Char)
  | doneMark
deriving DecidableEq

/-- Result of the relay loop: the sanitized data events written so far, the
fence-sanitizer state, the raw accumulated text (`accTextOriginal`) and the
`sawHandoffSignal` flag. -/
structure RelayOut where
  events : List SseEvent
  fenceSt : Bool
  acc : List Char
  saw : Bool

/-- Sanitize the fragments of one unit in order, threading the fence state. -/
def sanitizeFrags (st : Bool) : List (List Char) → List (List Char) × Bool
  | [] => ([], st)
  | f :: fs =>
    let r := sanitizeDeltaText st f
    let q := sanitizeFrags r.2 fs
    (r.1 :: q.1, q.2)

/-- The relay loop: per unit, append the raw fragments to the accumulator,
write one sanitized data event, and record the metadata handoff signal. -/
def relayUnits (st : Bool) : List StreamUnitM → RelayOut
  | [] => ⟨[], st, [], false⟩
  | u :: us =>
    let sf := sanitizeFrags st u.frags
    let r := relayUnits sf.2 us
    ⟨.dataEvt sf.1 :: r.events, r.fenceSt, u.frags.flatten ++ r.acc, u.signal || r.saw⟩

/-- Overall outcome of a streaming request: the notification-transport
invocations (each with the record it would deliver), the events written to
the client, and whether the handler's own control flow reached
`clearInterval(keepAlive)`. -/
structure StreamResult where
  sent : List Json
  events : List SseEvent
  cleared : Bool

/-- `JSON.stringify` escaping of a string embedded in the SSE error payload
(quote and backslash; control characters do not occur in the texts of
interest). -/
def jsonEscapeStr (l : List Char) : List Char :=
  l.flatMap (fun c => if c = '"' || c = '\\' then ['\\', c] else [c])

/-- The default record the part_000 stream handler synthesizes at stream end
when only the metadata signal was seen:
`{ kind: "order", payload: { full_name: "Stream Handoff", items: [] } }`. -/
def defaultHandoffRecord : Json :=
  .obj [("kind", .str "order"),
        ("payload", .obj [("full_name", .str "Stream Handoff"), ("items", .arr [])])]

/--
The `POST /api/chat/stream` handler of `src/unnamed/part_000` (second
iteration, lines 781–1023), for a request that passed parameter and brand
validation.  Inputs: whether the upstream stream started successfully (a
failure carries the upstream error body), the decoded stream units, whether
notification routing (`email_to` / `email_from`, brand or environment) is
configured, and whether the notification transport succeeds.

* upstream start failure → `throw`; the fatal catch logs the error and writes
  only `data: {"error":"stream_failed"}`, then `[DONE]`, and clears the
  keep-alive interval;
* otherwise the relay loop runs; at stream end `extractHandoff` runs on the
  accumulated text; if it produced a record **or** `sawHandoffSignal` is set,
  the missing-routing checks may throw (caught and logged), else
  `sendHandoffEmail` is invoked once with the record (or the synthesized
  default); a transport failure is caught and logged with message/code/stack;
  then `[DONE]` is written and the interval cleared. -/
def p0StreamHandler (upstreamOk : Bool) (_upErrBody : List Char)
    (units : List StreamUnitM) (haveTo haveFrom : Bool) (_emailOk : Bool) : StreamResult :=
  if !upstreamOk then
    { sent := [], events := [.errEvent (toL "stream_failed"), .doneMark], cleared := true }
  else
    let r := relayUnits false units
    let handoff := extractHandoff_p0 r.acc
    let sent :=
      if handoff.isSome || r.saw then
        if haveTo then
          if haveFrom then [handoff.getD defaultHandoffRecord]
          else []
        else []
      else []
    { sent := sent, events := r.events ++ [.doneMark], cleared := true }

/-- Placeholder-valued scope environment: only the *names* matter, a
reference to an absent name is a `ReferenceError`. -/
def jsVars (names : List String) : List (String × Json) :=
  names.map (fun n => (n, Json.null))

/-- Variable read: `none` models the `ReferenceError` thrown for an
identifier bound nowhere in the enclosing scopes (ES modules are strict). -/
def lookupVar (env : List (String × Json)) (x : String) : Option Json :=
  env.lookup x

/-- The identifiers bound in the scopes enclosing the post-stream code of the
`src/index.js` `POST /api/chat/stream` handler (lines 411–428); neither
`kind` nor `payload` is among them, nor at module top level. -/
def idxStreamEnv : List (String × Json) :=
  jsVars ["threadId", "message", "brandKey", "brandCfg", "KA_MS", "keepAlive",
          "clientClosed", "upstream", "buffer", "accTextOriginal", "decoder",
          "reader", "inFencedBlock", "sanitizeDeltaText"]

/-- The identifiers bound in the scopes enclosing lines 559–578 of the
`src/index.js` `POST /api/chat/message` handler; neither `kind` nor `payload`
is among them, nor at module top level. -/
def idxMsgEnv : List (String × Json) :=
  jsVars ["threadId", "message", "brandKey", "brandCfg", "run", "runStatus",
          "runId", "started", "TIMEOUT_MS", "msgs", "assistantMsg", "text",
          "stripFenced", "handoff"]

/-- The record `{ kind, payload }` handed to the notification transport when
a handoff was extracted (`sendHandoffEmail({ ...handoff, brandCfg })`). -/
def idxRecordJson (h : IdxHandoff) : Json :=
  .obj [("kind", .str (String.mk h.kind)), ("payload", h.payload)]

/-- The record `{ kind, payload }` built from looked-up variable values (the
duplicated `sendHandoffEmail({ kind, payload, brandCfg })` call sites). -/
def recordOf (k p : Json) : Json := .obj [("kind", k), ("payload", p)]

/-- `String(e)` for the `ReferenceError` on reading an unbound identifier. -/
def refErrMsg (x : String) : List Char :=
  toL "ReferenceError: " ++ toL x ++ toL " is not defined"

/--
The `POST /api/chat/stream` handler of `src/index.js` (lines 243–445), for a
request that passed parameter and brand validation.

* upstream start failure → `throw new Error("OpenAI stream start failed " +
  status + ": " + errText)` (the status code is elided here); the outer catch
  writes `data: {"error": String(e)}` — with the upstream body embedded — then
  `[DONE]`, **without** clearing the keep-alive interval;
* otherwise, after the relay loop, line 412 logs `{ kind, ... }`: the
  shorthand property reads the unbound identifier `kind`, so a
  `ReferenceError` is thrown and the outer catch path is taken (again without
  `clearInterval`).  The code following that line (extraction, the guarded
  send, and the second unguarded `sendHandoffEmail({ kind, payload, brandCfg })`)
  is transcribed for faithfulness but is unreachable given `idxStreamEnv`. -/
def idxStreamHandler (upstreamOk : Bool) (upErrBody : List Char)
    (units : List StreamUnitM) (emailOk : Bool) : StreamResult :=
  if !upstreamOk then
    let msg := jsonEscapeStr (toL "Error: OpenAI stream start failed: " ++ upErrBody)
    { sent := [], events := [.errEvent msg, .doneMark], cleared := false }
  else
    let r := relayUnits false units
    match lookupVar idxStreamEnv "kind" with
    | none =>
      { sent := [],
        events := r.events ++ [.errEvent (jsonEscapeStr (refErrMsg "kind")), .doneMark],
        cleared := false }
    | some _ =>
      let handoff := extractHandoff_idx r.acc
      let s1 := match handoff with | some h => [idxRecordJson h] | none => []
      match lookupVar idxStreamEnv "kind", lookupVar idxStreamEnv "payload" with
      | some k, some p =>
        if emailOk then
          { sent := s1 ++ [recordOf k p], events := r.events ++ [.doneMark], cleared := true }
        else
          { sent := s1 ++ [recordOf k p],
            events := r.events ++
              [.errEvent (jsonEscapeStr (toL "Error: email send failed")), .doneMark],
            cleared := false }
      | _, _ =>
        { sent := s1,
          events := r.events ++ [.errEvent (jsonEscapeStr (refErrMsg "kind")), .doneMark],
          cleared := false }

/-- Client-visible outcome of a non-streaming `POST /api/chat/message`. -/
inductive MsgResp where
  | okJson (message : List Char) (handoffKind : Option (List Char))
  | err500 (code : String)
deriving DecidableEq

/-- Outcome of a non-streaming request: transport invocations and response. -/
structure MsgResult where
  sent : List Json
  resp : MsgResp

/--
The `POST /api/chat/message` handler of `src/index.js` (lines 480–594), for a
request whose upstream steps succeeded and produced the assistant text
`text0`.

The handler strips fenced blocks *before* extraction
(`text = stripFenced(text)`, line 546), then `extractHandoff(text)`.  If a
record is found, the `PREP` log at line 561 reads the unbound identifiers
`kind`/`payload` → `ReferenceError` → the catch at line 590 answers
`500 {error:"message_failed"}`.  If not, the unconditional
`sendHandoffEmail({ kind, payload, brandCfg })` at line 577 reads `kind` →
the same `ReferenceError` → the same 500.  The code between is transcribed
for faithfulness but is unreachable given `idxMsgEnv` (the empty-text
placeholder substituted into the success JSON is elided). -/
def idxMessageHandler (text0 : List Char) (emailOk : Bool) : MsgResult :=
  let text := stripFenced text0
  let handoff := extractHandoff_idx text
  match handoff with
  | some h =>
    match lookupVar idxMsgEnv "kind" with
    | none => { sent := [], resp := .err500 "message_failed" }
    | some _ =>
      let s1 := [idxRecordJson h]
      let text1 := if h.raw.isEmpty then text else trimWS (removeFirstSeq h.raw text)
      match lookupVar idxMsgEnv "kind", lookupVar idxMsgEnv "payload" with
      | some k, some p =>
        if emailOk then
          { sent := s1 ++ [recordOf k p], resp := .okJson (stripFenced text1) (some h.kind) }
        else { sent := s1 ++ [recordOf k p], resp := .err500 "message_failed" }
      | _, _ => { sent := s1, resp := .err500 "message_failed" }
  | none =>
    match lookupVar idxMsgEnv "kind", lookupVar idxMsgEnv "payload" with
    | some k, some p =>
      if emailOk then { sent := [recordOf k p], resp := .okJson (stripFenced text) none }
      else { sent := [recordOf k p], resp := .err500 "message_failed" }
    | _, _ => { sent := [], resp := .err500 "message_failed" }

/--
The `POST /api/chat/message` handler of `src/unnamed/part_001` (lines
433–539), for a request whose upstream steps succeeded and produced the
assistant text `text0`: strip fenced blocks, extract, and if a record was
found invoke `sendHandoffEmail({...handoff, brandCfg})` inside
`try { } catch (e) { console.error }` (a transport failure is logged and
swallowed), scrub `handoff.raw` from the reply, apply the final fence
cleanup, and answer the success JSON either way. -/
def p1MessageHandler (text0 : List Char) (_emailOk : Bool) : MsgResult :=
  let text := stripFenced text0
  let handoff := extractHandoff_idx text
  match handoff with
  | some h =>
    let text1 := if h.raw.isEmpty then text else trimWS (removeFirstSeq h.raw text)
    { sent := [idxRecordJson h], resp := .okJson (stripFenced text1) (some h.kind) }
  | none =>
    { sent := [], resp := .okJson (stripFenced text) none }

/-! ## The four handoff encodings of one logical content (spec §6) -/

/-- Format 1: the handoff-keyword fenced block. -/
def enc1 (j : List Char) : List Char := toL "```handoff" ++ ['\n'] ++ j ++ ['\n'] ++ fence

/-- Format 2: a generically-tagged fenced block (content carries the handoff
identification). -/
def enc2 (j : List Char) : List Char := toL "```json" ++ ['\n'] ++ j ++ ['\n'] ++ fence

/-- Format 3: the explicit open/close tag pair. -/
def enc3 (j : List Char) : List Char :=
  toL "<handoff>" ++ ['\n'] ++ j ++ ['\n'] ++ toL "</handoff>"

/-- Format 4: the inline base64 token. -/
def enc4 (b64 : List Char) : List Char := toL "[[HANDOFF:" ++ b64 ++ toL "]]"

/-! ## Lemmas: basic scanning -/

theorem san_nil (inB : Bool) : sanitizeDeltaText inB [] = ([], inB) := by
  cases inB <;> rfl

theorem san_fence (inB : Bool) (rest : List Char) :
    sanitizeDeltaText inB ('`' :: '`' :: '`' :: rest) = sanitizeDeltaText (!inB) rest := by
  cases inB <;> rfl

theorem startsWith_fence_iff (l : List Char) :
    startsWithSeq fence l = true ↔ ∃ rest, l = '`' :: '`' :: '`' :: rest := by
  constructor
  · intro h
    match l with
    | [] => simp [startsWithSeq, fence] at h
    | [a] => simp [startsWithSeq, fence] at h
    | [a, b] => simp [startsWithSeq, fence] at h
    | a :: b :: c :: rest =>
      simp [startsWithSeq, fence] at h
      obtain ⟨ha, hb, hc⟩ := h
      exact ⟨rest, by rw [← ha, ← hb, ← hc]⟩
  · rintro ⟨rest, rfl⟩
    simp [startsWithSeq, fence]

theorem san_cons_not_fence (inB : Bool) (c : Char) (l : List Char)
    (h : startsWithSeq fence (c :: l) = false) :
    sanitizeDeltaText inB (c :: l) =
      if inB then sanitizeDeltaText true l
      else ((c :: (sanitizeDeltaText false l).1, (sanitizeDeltaText false l).2)) := by
  match c, l with
  | '`', '`' :: '`' :: rest => simp [startsWithSeq, fence] at h
  | c, [] =>
    by_cases hc : c = '`'
    · subst hc; cases inB <;> rfl
    · cases inB <;> simp [sanitizeDeltaText, hc]
  | c, [d] =>
    by_cases hc : c = '`'
    · subst hc
      by_cases hd : d = '`'
      · subst hd; cases inB <;> rfl
      · cases inB <;> simp [sanitizeDeltaText, hd]
    · cases inB <;> simp [sanitizeDeltaText, hc]
  | c, d :: e :: rest =>
    simp [startsWithSeq, fence] at h
    by_cases hc : c = '`'
    · subst hc
      by_cases hd : d = '`'
      · subst hd
        have he : e ≠ '`' := by
          intro he; exact absurd (h rfl rfl) (by simp [he])
        cases inB <;> simp [sanitizeDeltaText, he]
      · cases inB <;> simp [sanitizeDeltaText, hd]
    · cases inB <;> simp [sanitizeDeltaText, hc]

theorem noTrailTick_tail (c : Char) (rest : List Char)
    (h : noTrailTick (c :: rest)) : noTrailTick rest := by
  match rest with
  | [] => exact Or.inl rfl
  | d :: rest' =>
    right
    rcases h with h | h
    · exact absurd h (by simp)
    · simpa [List.getLast?_cons_cons] using h

theorem not_fence_cons_append_r (c : Char) (rest b : List Char)
    (h : startsWithSeq fence (c :: rest) = false)
    (hb : headNotTick b) :
    startsWithSeq fence (c :: (rest ++ b)) = false := by
  match rest with
  | [] =>
    rcases hb with hb | hb
    · subst hb; simpa using h
    · match b with
      | [] => simp [startsWithSeq, fence]
      | x :: xs =>
        simp at hb
        have hx : ('`' == x) = false := by simp [Ne.symm hb]
        simp [startsWithSeq, fence, hx]
  | [d] =>
    rcases hb with hb | hb
    · subst hb; simpa using h
    · match b with
      | [] => simp [startsWithSeq, fence]
      | x :: xs =>
        simp at hb
        have hx : ('`' == x) = false := by simp [Ne.symm hb]
        simp [startsWithSeq, fence, hx]
  | d :: e :: rest' =>
    simp [startsWithSeq, fence] at h ⊢
    tauto

theorem not_fence_cons_append_l (c : Char) (rest b : List Char)
    (h : startsWithSeq fence (c :: rest) = false)
    (ha : noTrailTick (c :: rest)) :
    startsWithSeq fence (c :: (rest ++ b)) = false := by
  match rest with
  | [] =>
    rcases ha with ha | ha
    · exact absurd ha (by simp)
    · simp at ha
      have hc : ('`' == c) = false := by simp [Ne.symm ha]
      simp [startsWithSeq, fence, hc]
  | [d] =>
    rcases ha with ha | ha
    · exact absurd ha (by simp)
    · simp [List.getLast?_cons_cons] at ha
      have hd : ('`' == d) = false := by simp [Ne.symm ha]
      simp [startsWithSeq, fence, hd]
  | d :: e :: rest' =>
    simp [startsWithSeq, fence] at h ⊢
    tauto

theorem san_split_right_n :
    ∀ (n : Nat) (a : List Char) (st : Bool) (b : List Char), a.length ≤ n → headNotTick b →
      sanitizeDeltaText st (a ++ b) =
        ((sanitizeDeltaText st a).1 ++ (sanitizeDeltaText (sanitizeDeltaText st a).2 b).1,
         (sanitizeDeltaText (sanitizeDeltaText st a).2 b).2) := by
  intro n
  induction n with
  | zero =>
    intro a st b ha _
    have : a = [] := List.length_eq_zero.mp (Nat.le_zero.mp ha)
    subst this; simp [san_nil]
  | succ n ih =>
    intro a st b ha hb
    match a with
    | [] => simp [san_nil]
    | c :: rest =>
      by_cases hf : startsWithSeq fence (c :: rest) = true
      · obtain ⟨rest', hr⟩ := (startsWith_fence_iff _).mp hf
        have hlen : rest'.length ≤ n := by
          have := congrArg List.length hr
          simp at this ha; omega
        rw [hr]
        have e1 : ('`' :: '`' :: '`' :: rest') ++ b = '`' :: '`' :: '`' :: (rest' ++ b) := rfl
        rw [e1, san_fence, san_fence]
        exact ih rest' (!st) b hlen hb
      · have hf0 : startsWithSeq fence (c :: rest) = false := eq_false_of_ne_true hf
        have hgen : startsWithSeq fence (c :: (rest ++ b)) = false :=
          not_fence_cons_append_r c rest b hf0 hb
        have e1 : (c :: rest) ++ b = c :: (rest ++ b) := rfl
        rw [e1, san_cons_not_fence _ _ _ hgen, san_cons_not_fence _ _ _ hf0]
        have hlen : rest.length ≤ n := by simp at ha; omega
        cases st with
        | true => simpa using ih rest true b hlen hb
        | false =>
          simp only [Bool.false_eq_true, if_false]
          have H := ih rest false b hlen hb
          rw [H]; simp

theorem san_split_left_n :
    ∀ (n : Nat) (a : List Char) (st : Bool) (b : List Char), a.length ≤ n → noTrailTick a →
      sanitizeDeltaText st (a ++ b) =
        ((sanitizeDeltaText st a).1 ++ (sanitizeDeltaText (sanitizeDeltaText st a).2 b).1,
         (sanitizeDeltaText (sanitizeDeltaText st a).2 b).2) := by
  intro n
  induction n with
  | zero =>
    intro a st b ha _
    have : a = [] := List.length_eq_zero.mp (Nat.le_zero.mp ha)
    subst this; simp [san_nil]
  | succ n ih =>
    intro a st b ha hA
    match a with
    | [] => simp [san_nil]
    | c :: rest =>
      by_cases hf : startsWithSeq fence (c :: rest) = true
      · obtain ⟨rest', hr⟩ := (startsWith_fence_iff _).mp hf
        have hlen : rest'.length ≤ n := by
          have := congrArg List.length hr
          simp at this ha; omega
        have hA' : noTrailTick rest' := by
          have h1 := noTrailTick_tail _ _ (hr ▸ hA)
          have h2 := noTrailTick_tail _ _ h1
          exact noTrailTick_tail _ _ h2
        rw [hr]
        have e1 : ('`' :: '`' :: '`' :: rest') ++ b = '`' :: '`' :: '`' :: (rest' ++ b) := rfl
        rw [e1, san_fence, san_fence]
        exact ih rest' (!st) b hlen hA'
      · have hf0 : startsWithSeq fence (c :: rest) = false := eq_false_of_ne_true hf
        have hgen : startsWithSeq fence (c :: (rest ++ b)) = false :=
          not_fence_cons_append_l c rest b hf0 hA
        have e1 : (c :: rest) ++ b = c :: (rest ++ b) := rfl
        rw [e1, san_cons_not_fence _ _ _ hgen, san_cons_not_fence _ _ _ hf0]
        have hlen : rest.length ≤ n := by simp at ha; omega
        have hA' : noTrailTick rest := noTrailTick_tail _ _ hA
        cases st with
        | true => simpa using ih rest true b hlen hA'
        | false =>
          simp only [Bool.false_eq_true, if_false]
          have H := ih rest false b hlen hA'
          rw [H]; simp

theorem san_split_left (a b : List Char) (st : Bool) (hA : noTrailTick a) :
    sanitizeDeltaText st (a ++ b) =
      ((sanitizeDeltaText st a).1 ++ (sanitizeDeltaText (sanitizeDeltaText st a).2 b).1,
       (sanitizeDeltaText (sanitizeDeltaText st a).2 b).2) :=
  san_split_left_n a.length a st b le_rfl hA

theorem san_split_right (a b : List Char) (st : Bool) (hb : headNotTick b) :
    sanitizeDeltaText st (a ++ b) =
      ((sanitizeDeltaText st a).1 ++ (sanitizeDeltaText (sanitizeDeltaText st a).2 b).1,
       (sanitizeDeltaText (sanitizeDeltaText st a).2 b).2) :=
  san_split_right_n a.length a st b le_rfl hb

theorem inblock_no_fence (chunk : List Char) (h : containsSeq fence chunk = false) :
    sanitizeDeltaText true chunk = ([], true) := by
  induction chunk with
  | nil => rfl
  | cons c rest ih =>
    simp [containsSeq] at h
    obtain ⟨h1, h2⟩ := h
    rw [san_cons_not_fence true c rest h1]
    simpa using ih h2

/-! ## Claim C2 — chunk-boundary invariance of the Fence Sanitizer -/

/-- Claim C2, counterexample: splitting `"a```b```c"` into the chunks
`"a`"`, `"``b``"`, `"`c"` — boundaries falling inside the ``` markers — makes
the chunk-by-chunk sanitizer output the whole text unchanged (no chunk
contains a complete marker), while the one-shot run on the concatenation
suppresses the fenced block and outputs `"ac"`.  So chunkwise processing with
carried state does **not** always equal processing the concatenation. -/
theorem claim_C2_counterexample :
    ([toL "a`", toL "``b``", toL "`c"] : List (List Char)).flatten = toL "a```b```c" ∧
    (sanitizeChunks false [toL "a`", toL "``b``", toL "`c"]).1 ≠
      (sanitizeDeltaText false (toL "a```b```c")).1 := by
  constructor
  · rfl
  · decide

/-- Claim C2 (amended): the Fence Sanitizer applied chunk-by-chunk with the
in-block state carried between calls, outputs concatenated, agrees with the
one-shot run on the concatenation **provided no chunk ends with a backtick**
(in particular, no ``` marker is cut by a chunk boundary); the original
universally-quantified claim fails when a marker straddles a boundary. -/
theorem claim_C2_chunk_invariance (chunks : List (List Char)) (st : Bool)
    (h : ∀ c ∈ chunks, noTrailTick c) :
    sanitizeChunks st chunks = sanitizeDeltaText st chunks.flatten := by
  induction chunks generalizing st with
  | nil => simp [sanitizeChunks, san_nil]
  | cons c cs ih =>
    have hc : noTrailTick c := h c (by simp)
    have hcs : ∀ x ∈ cs, noTrailTick x := fun x hx => h x (by simp [hx])
    have e : sanitizeChunks st (c :: cs) =
        ((sanitizeDeltaText st c).1 ++ (sanitizeChunks (sanitizeDeltaText st c).2 cs).1,
         (sanitizeChunks (sanitizeDeltaText st c).2 cs).2) := rfl
    simp only [List.flatten_cons]
    rw [e, ih _ hcs, san_split_left c cs.flatten st hc]

/-- Concrete instance of the amended C2 statement: a split of
`"a```b```cd"` at a boundary not adjacent to a backtick. -/
theorem claim_C2_chunk_invariance_witness :
    (∀ c ∈ [toL "a```b", toL "```cd"], noTrailTick c) ∧
    sanitizeChunks false [toL "a```b", toL "```cd"] =
      sanitizeDeltaText false ([toL "a```b", toL "```cd"] : List (List Char)).flatten :=
  ⟨by decide, claim_C2_chunk_invariance [toL "a```b", toL "```cd"] false (by decide)⟩

/-! ## Claim C8 — unterminated fences never forward trailing content -/

/-- Claim C8: (i) from the in-block state, a chunk with no closing marker
contributes nothing to the output and the state stays in-block; (ii) for any
text `a ++ ``` ++ b` whose marker leaves the sanitizer in-block and whose
tail `b` contains no closing marker (and does not begin with a backtick, so
the displayed marker really is the token the scanner sees), the output equals
the output on `a ++ ``` ` alone: nothing of `b` is ever forwarded. -/
theorem claim_C8_unterminated_fence :
    (∀ chunk, containsSeq fence chunk = false →
      sanitizeDeltaText true chunk = ([], true)) ∧
    (∀ a b : List Char, headNotTick b → containsSeq fence b = false →
      (sanitizeDeltaText false (a ++ fence)).2 = true →
      sanitizeDeltaText false ((a ++ fence) ++ b) =
        ((sanitizeDeltaText false (a ++ fence)).1, true)) := by
  constructor
  · exact inblock_no_fence
  · intro a b hb hnf hst
    rw [san_split_right (a ++ fence) b false hb, hst, inblock_no_fence b hnf]
    simp

/-- Concrete instance of C8: in-block `"secret tail"` is fully swallowed, and
`"hello ```secret"` outputs only what precedes the unterminated marker. -/
theorem claim_C8_witness :
    sanitizeDeltaText true (toL "secret tail") = ([], true) ∧
    sanitizeDeltaText false ((toL "hello " ++ fence) ++ toL "secret") =
      ((sanitizeDeltaText false (toL "hello " ++ fence)).1, true) :=
  ⟨claim_C8_unterminated_fence.1 (toL "secret tail") (by decide),
   claim_C8_unterminated_fence.2 (toL "hello ") (toL "secret")
     (by decide) (by decide) (by decide)⟩

/-! ## Claim C1 — the notification side effect fires at most once per request -/

/-- Claim C1: in every modelled handler — the part_000 stream handler, the
`src/index.js` stream and message handlers, and the part_001 message handler —
the notification transport is invoked at most once over the whole request
lifecycle.  (In the `src/index.js` handlers the duplicated call sites are
preempted by the `ReferenceError` on the unbound `kind`, so the count there is
in fact zero.) -/
theorem claim_C1_notify_at_most_once :
    (∀ u b units cTo cFr e, (p0StreamHandler u b units cTo cFr e).sent.length ≤ 1) ∧
    (∀ u b units e, (idxStreamHandler u b units e).sent.length ≤ 1) ∧
    (∀ t e, (idxMessageHandler t e).sent.length ≤ 1) ∧
    (∀ t e, (p1MessageHandler t e).sent.length ≤ 1) := by
  have hkS : lookupVar idxStreamEnv "kind" = none := by rfl
  have hkM : lookupVar idxMsgEnv "kind" = none := by rfl
  refine ⟨?_, ?_, ?_, ?_⟩
  · intro u b units cTo cFr e
    cases u
    · simp [p0StreamHandler]
    · simp [p0StreamHandler]
      split_ifs <;> simp
  · intro u b units e
    cases u <;> simp [idxStreamHandler, hkS]
  · intro t e
    rcases hE : extractHandoff_idx (stripFenced t) with _ | h <;>
      simp [idxMessageHandler, hE, hkM]
  · intro t e
    rcases hE : extractHandoff_idx (stripFenced t) with _ | h <;>
      simp [p1MessageHandler, hE]

/-! ## Claim C3 — the per-unit metadata signal alone produces a record -/

/-- Claim C3, counterexample: a stream whose single unit carries no text but
`metadata.handoff === true`.  The Grammar Registry parses nothing, yet the
part_000 stream-end dispatch synthesizes the default record
`{kind:"order", payload:{full_name:"Stream Handoff", items:[]}}` and invokes
the notification transport with it — the signal is *not* merely logged. -/
theorem claim_C3_counterexample :
    extractHandoff_p0 (relayUnits false [⟨[], true⟩]).acc = none ∧
    (p0StreamHandler true [] [⟨[], true⟩] true true true).sent =
      [defaultHandoffRecord] := by
  constructor <;> rfl

/-- Claim C3 (amended): whenever the accumulated text yields no parsed record
but the per-unit handoff signal was observed during streaming (and the
notification routing is configured), the part_000 stream handler produces the
synthesized default HandoffRecord and dispatches exactly one notification for
it; no Fallback Inferencer exists in the code. -/
theorem claim_C3_signal_synthesizes_default (b : List Char) (units : List StreamUnitM)
    (hs : (relayUnits false units).saw = true)
    (he : extractHandoff_p0 (relayUnits false units).acc = none) :
    (p0StreamHandler true b units true true true).sent = [defaultHandoffRecord] := by
  simp [p0StreamHandler, he, hs]

/-- Concrete instance of the amended C3 statement. -/
theorem claim_C3_witness :
    (relayUnits false [⟨[], true⟩]).saw = true ∧
    (p0StreamHandler true [] [⟨[], true⟩] true true true).sent =
      [defaultHandoffRecord] :=
  ⟨rfl, claim_C3_signal_synthesizes_default [] [⟨[], true⟩] rfl rfl⟩

/-! ## Claim C4 — notification failure never changes the client outcome -/

/-- Claim C4: wherever the notification send is actually reachable, its
failure is confined.  (i) In the part_000 stream handler the entire result —
transport invocations, client events, timer — is independent of transport
success, and a request with an extracted record still terminates with its
data events followed by `[DONE]` (no error event).  (ii) The part_001 message
handler's client response is independent of transport success and is always
the normal success JSON.  (iii)–(iv) In the `src/index.js` handlers no
notification send is ever invoked (the `ReferenceError` paths preempt both
call sites), so no notification failure can occur there at all. -/
theorem claim_C4_notification_failure_isolated :
    (∀ b units cTo cFr h, extractHandoff_p0 (relayUnits false units).acc = some h →
      p0StreamHandler true b units cTo cFr false = p0StreamHandler true b units cTo cFr true ∧
      (p0StreamHandler true b units cTo cFr false).events =
        (relayUnits false units).events ++ [.doneMark]) ∧
    (∀ t, (p1MessageHandler t false).resp = (p1MessageHandler t true).resp ∧
      ∃ m k, (p1MessageHandler t false).resp = .okJson m k) ∧
    (∀ t e, (idxMessageHandler t e).sent = []) ∧
    (∀ u b units e, (idxStreamHandler u b units e).sent = []) := by
  have hkS : lookupVar idxStreamEnv "kind" = none := by rfl
  have hkM : lookupVar idxMsgEnv "kind" = none := by rfl
  refine ⟨?_, ?_, ?_, ?_⟩
  · intro b units cTo cFr h _he
    exact ⟨rfl, by simp [p0StreamHandler]⟩
  · intro t
    refine ⟨rfl, ?_⟩
    rcases hE : extractHandoff_idx (stripFenced t) with _ | h
    · exact ⟨stripFenced (stripFenced t), none, by simp [p1MessageHandler, hE]⟩
    · exact ⟨stripFenced (if h.raw.isEmpty then stripFenced t
          else trimWS (removeFirstSeq h.raw (stripFenced t))), some h.kind,
        by simp [p1MessageHandler, hE]⟩
  · intro t e
    rcases hE : extractHandoff_idx (stripFenced t) with _ | h <;>
      simp [idxMessageHandler, hE, hkM]
  · intro u b units e
    cases u <;> simp [idxStreamHandler, hkS]

/-! ## Claim C6 — a customer_request without a phone number -/

/-- Claim C6, counterexample: a streamed `customer_request` handoff whose
payload has no phone number.  The extractor accepts it (only `kind` and
`payload` truthiness are checked), no validator exists, and the stream-end
dispatch invokes the notification transport with it — rather than rejecting
the record and suppressing notification. -/
theorem claim_C6_counterexample :
    extractHandoff_p0 (relayUnits false
        [⟨[toL "```handoff\n\x7b\"kind\":\"customer_request\",\"payload\":\x7b\"full_name\":\"Ali\",\"summary\":\"needs help\"\x7d\x7d\n```"], false⟩]).acc =
      some (Json.obj [("kind", Json.str "customer_request"),
        ("payload", Json.obj [("full_name", Json.str "Ali"),
                              ("summary", Json.str "needs help")])]) ∧
    (∃ p, jGet (Json.obj [("kind", Json.str "customer_request"),
        ("payload", Json.obj [("full_name", Json.str "Ali"),
                              ("summary", Json.str "needs help")])]) "payload" = some p ∧
      jGet p "phone" = none) ∧
    (p0StreamHandler true []
        [⟨[toL "```handoff\n\x7b\"kind\":\"customer_request\",\"payload\":\x7b\"full_name\":\"Ali\",\"summary\":\"needs help\"\x7d\x7d\n```"], false⟩]
        true true true).sent =
      [Json.obj [("kind", Json.str "customer_request"),
        ("payload", Json.obj [("full_name", Json.str "Ali"),
                              ("summary", Json.str "needs help")])]] := by
  exact ⟨by rfl, ⟨_, rfl, rfl⟩, by rfl⟩

/-- Claim C6 (amended): no per-kind validation exists — any extracted record,
including a `customer_request` whose payload lacks a phone number, proceeds
to exactly one notification attempt when the routing configuration is
present. -/
theorem claim_C6_no_validation (b : List Char) (units : List StreamUnitM) (r : Json)
    (he : extractHandoff_p0 (relayUnits false units).acc = some r)
    (_hk : jGet r "kind" = some (.str "customer_request"))
    (_hp : ∀ p, jGet r "payload" = some p → jGet p "phone" = none) :
    (p0StreamHandler true b units true true true).sent = [r] := by
  simp [p0StreamHandler, he]

/-- Concrete instance of the amended C6 statement. -/
theorem claim_C6_witness :
    (p0StreamHandler true []
        [⟨[toL "```handoff\n\x7b\"kind\":\"customer_request\",\"payload\":\x7b\"full_name\":\"Ali\",\"summary\":\"needs help\"\x7d\x7d\n```"], false⟩]
        true true true).sent =
      [Json.obj [("kind", Json.str "customer_request"),
        ("payload", Json.obj [("full_name", Json.str "Ali"),
                              ("summary", Json.str "needs help")])]] :=
  claim_C6_no_validation [] _ _ (by rfl) (by rfl)
    (by intro p hp
        rw [show jGet (Json.obj [("kind", Json.str "customer_request"),
          ("payload", Json.obj [("full_name", Json.str "Ali"),
                                ("summary", Json.str "needs help")])]) "payload" =
          some (Json.obj [("full_name", Json.str "Ali"),
                          ("summary", Json.str "needs help")]) from rfl] at hp
        cases hp
        rfl)

/-! ## Claim C9 — the keep-alive timer on termination paths -/

/-- Claim C9 (the code-level facts): the part_000 stream handler clears the
keep-alive interval on both its normal and its fatal-catch termination path,
but the `src/index.js` stream handler never reaches `clearInterval` on any of
its own termination paths — its outer catch ends the SSE response without
clearing, and its normal path is preempted by the `ReferenceError`; only the
client-disconnect `close` handler would clear the interval. -/
theorem claim_C9_keepalive_timer :
    (∀ u b units cTo cFr e, (p0StreamHandler u b units cTo cFr e).cleared = true) ∧
    (∀ u b units e, (idxStreamHandler u b units e).cleared = false) := by
  have hkS : lookupVar idxStreamEnv "kind" = none := by rfl
  constructor
  · intro u b units cTo cFr e
    cases u <;> simp [p0StreamHandler]
  · intro u b units e
    cases u <;> simp [idxStreamHandler, hkS]

/-! ## Claim C10 — the out-of-scope `kind`/`payload` references -/

/-- Claim C10: in the `src/index.js` variant, every request that reaches the
post-extraction notification step throws a `ReferenceError` on the unbound
`kind`/`payload`: the message handler never answers its `status:"ok"` JSON —
it always answers the 500 `message_failed` error — and the stream handler
always takes its error path after the relay loop (writing the stringified
error and `[DONE]`), independent of the upstream response content. -/
theorem claim_C10_reference_error_paths :
    (∀ t e, (idxMessageHandler t e).resp = .err500 "message_failed") ∧
    (∀ b units e, (idxStreamHandler true b units e).events =
      (relayUnits false units).events ++
        [.errEvent (jsonEscapeStr (refErrMsg "kind")), .doneMark]) := by
  have hkS : lookupVar idxStreamEnv "kind" = none := by rfl
  have hkM : lookupVar idxMsgEnv "kind" = none := by rfl
  constructor
  · intro t e
    rcases hE : extractHandoff_idx (stripFenced t) with _ | h <;>
      simp [idxMessageHandler, hE, hkM]
  · intro b units e
    simp [idxStreamHandler, hkS]

/-! ## Lemmas: occurrence scanning -/

theorem startsWith_self_append (p r : List Char) : startsWithSeq p (p ++ r) = true := by
  induction p with
  | nil => rfl
  | cons c ps ih => simp [startsWithSeq, ih]

theorem startsWith_self (p : List Char) : startsWithSeq p p = true := by
  have := startsWith_self_append p []
  simpa using this

theorem splitFirst_of_starts (pat s : List Char) (h : startsWithSeq pat s = true) :
    splitFirstSeq pat s = some ([], s.drop pat.length) := by
  cases s <;> simp [splitFirstSeq, h]

theorem splitFirst_skip (hd : Char) (pt u v : List Char) (hu : ∀ c ∈ u, c ≠ hd) :
    splitFirstSeq (hd :: pt) (u ++ v) =
      Option.map (fun pr => (u ++ pr.1, pr.2)) (splitFirstSeq (hd :: pt) v) := by
  induction u with
  | nil =>
    cases hsp : splitFirstSeq (hd :: pt) v <;> simp [hsp]
  | cons c u' ih =>
    have hc : c ≠ hd := hu c (by simp)
    have h1 : startsWithSeq (hd :: pt) (c :: (u' ++ v)) = false := by
      simp [startsWithSeq]
      intro h'
      exact absurd h'.symm hc
    have ih' := ih (fun x hx => hu x (by simp [hx]))
    simp only [List.cons_append, splitFirstSeq, List.append_eq, h1, Bool.false_eq_true,
      if_false]
    rw [ih']
    cases hsp : splitFirstSeq (hd :: pt) v <;> simp [hsp]

theorem splitFirst_none_of_skip (hd : Char) (pt s : List Char) (hs : ∀ c ∈ s, c ≠ hd) :
    splitFirstSeq (hd :: pt) s = none := by
  have := splitFirst_skip hd pt s [] hs
  simpa [splitFirstSeq, startsWithSeq] using this

theorem contains_skip (hd : Char) (pt u v : List Char) (hu : ∀ c ∈ u, c ≠ hd) :
    containsSeq (hd :: pt) (u ++ v) = containsSeq (hd :: pt) v := by
  induction u with
  | nil => rfl
  | cons c u' ih =>
    have hc : c ≠ hd := hu c (by simp)
    have h1 : startsWithSeq (hd :: pt) (c :: (u' ++ v)) = false := by
      simp [startsWithSeq]
      intro h'
      exact absurd h'.symm hc
    have ih' := ih (fun x hx => hu x (by simp [hx]))
    simp [containsSeq, h1, ih']

theorem splitFirst_none_of_not_contains (pat s : List Char)
    (h : containsSeq pat s = false) : splitFirstSeq pat s = none := by
  induction s with
  | nil => simp [containsSeq] at h; simp [splitFirstSeq, h]
  | cons c rest ih =>
    simp [containsSeq] at h
    obtain ⟨h1, h2⟩ := h
    simp [splitFirstSeq, h1, ih h2]

theorem contains_append_self (pat u : List Char) : containsSeq pat (u ++ pat) = true := by
  induction u with
  | nil =>
    cases pat with
    | nil => rfl
    | cons c r => simp [containsSeq, startsWith_self]
  | cons c u' ih => simp [containsSeq, ih]

theorem jsonEscape_append (a b : List Char) :
    jsonEscapeStr (a ++ b) = jsonEscapeStr a ++ jsonEscapeStr b := by
  simp [jsonEscapeStr]

theorem jsonEscape_id (l : List Char) (h : ∀ c ∈ l, c ≠ '"' ∧ c ≠ '\\') :
    jsonEscapeStr l = l := by
  induction l with
  | nil => rfl
  | cons c rest ih =>
    have hc := h c (by simp)
    have ih' := ih (fun x hx => h x (by simp [hx]))
    have hcond : (decide (c = '"') || decide (c = '\\')) = false := by
      simp [hc.1, hc.2]
    show jsonEscapeStr (c :: rest) = c :: rest
    simp only [jsonEscapeStr, List.flatMap_cons, hcond, Bool.false_eq_true, if_false,
      List.singleton_append]
    exact congrArg (c :: ·) ih'

/-! ## Claim C7 — upstream error bodies and the client-visible error -/

/-- Claim C7, counterexample: when the upstream stream start fails, the
`src/index.js` stream handler embeds the raw upstream error body in the
thrown `Error` and its outer catch writes `String(e)` into the SSE error
event — the body `"UPSTREAM SECRET BODY"` appears verbatim in the event
written to the client. -/
theorem claim_C7_counterexample :
    (idxStreamHandler false (toL "UPSTREAM SECRET BODY") [] true).events =
      [.errEvent (toL "Error: OpenAI stream start failed: UPSTREAM SECRET BODY"),
       .doneMark] ∧
    containsSeq (toL "UPSTREAM SECRET BODY")
      (toL "Error: OpenAI stream start failed: UPSTREAM SECRET BODY") = true := by
  constructor <;> rfl

/-- Claim C7 (amended): the variants disagree.  The part_000 stream handler's
fatal catch emits only the generic `stream_failed` event, independent of the
upstream error body; the `src/index.js` stream handler emits an error event
that contains the upstream body verbatim (stated for bodies without
JSON-escaped characters, where `JSON.stringify` preserves the bytes). -/
theorem claim_C7_error_surface :
    (∀ b units cTo cFr e, (p0StreamHandler false b units cTo cFr e).events =
      [.errEvent (toL "stream_failed"), .doneMark]) ∧
    (∀ b units e, (∀ c ∈ b, c ≠ '"' ∧ c ≠ '\\') →
      ∃ m, (idxStreamHandler false b units e).events = [.errEvent m, .doneMark] ∧
        containsSeq b m = true) := by
  constructor
  · intro b units cTo cFr e
    simp [p0StreamHandler]
  · intro b units e hb
    refine ⟨jsonEscapeStr (toL "Error: OpenAI stream start failed: " ++ b),
      by simp [idxStreamHandler], ?_⟩
    rw [jsonEscape_append, jsonEscape_id b hb]
    by_cases hb0 : b = []
    · subst hb0; simp [containsSeq, startsWithSeq]
    · exact contains_append_self b _

/-- Concrete instance of the amended C7 statement. -/
theorem claim_C7_witness :
    ∃ m, (idxStreamHandler false (toL "SECRET42") [] true).events =
        [.errEvent m, .doneMark] ∧
      containsSeq (toL "SECRET42") m = true :=
  claim_C7_error_surface.2 (toL "SECRET42") [] true (by decide)

/-- Concrete instance of the hypothesis-bearing part of C4: a stream carrying
an extracted order handoff, with a failing notification transport, still
terminates with its data events followed by `[DONE]`. -/
theorem claim_C4_witness :
    extractHandoff_p0 (relayUnits false
        [⟨[toL "```handoff\n\x7b\"kind\":\"order\",\"payload\":\x7b\"qty\":2\x7d\x7d\n```"], false⟩]).acc =
      some (Json.obj [("kind", Json.str "order"),
                      ("payload", Json.obj [("qty", Json.num 2)])]) ∧
    (p0StreamHandler true []
        [⟨[toL "```handoff\n\x7b\"kind\":\"order\",\"payload\":\x7b\"qty\":2\x7d\x7d\n```"], false⟩]
        true true false).events =
      (relayUnits false
        [⟨[toL "```handoff\n\x7b\"kind\":\"order\",\"payload\":\x7b\"qty\":2\x7d\x7d\n```"], false⟩]).events
        ++ [.doneMark] :=
  ⟨by rfl,
   (claim_C4_notification_failure_isolated.1 []
      [⟨[toL "```handoff\n\x7b\"kind\":\"order\",\"payload\":\x7b\"qty\":2\x7d\x7d\n```"], false⟩]
      true true
      (Json.obj [("kind", Json.str "order"), ("payload", Json.obj [("qty", Json.num 2)])])
      (by rfl)).2⟩

/-! ## Lemmas: whitespace trimming and class runs -/

theorem dropWhile_head_false (c : Char) (j' : List Char)
    (h1 : (c :: j').dropWhile isWS = c :: j') : isWS c = false := by
  have := List.dropWhile_eq_self_iff.mp h1 (by simp)
  simpa using this

theorem trimWS_wrap (j : List Char) (hne : j ≠ [])
    (h1 : j.dropWhile isWS = j) (h2 : j.reverse.dropWhile isWS = j.reverse) :
    trimWS ('\n' :: (j ++ ['\n'])) = j := by
  obtain ⟨c, j', rfl⟩ : ∃ c j', j = c :: j' := by
    cases j with
    | nil => exact absurd rfl hne
    | cons c j' => exact ⟨c, j', rfl⟩
  have hc : isWS c = false := dropWhile_head_false c j' h1
  have hnl : isWS '\n' = true := by decide
  unfold trimWS
  rw [List.dropWhile_cons, if_pos hnl]
  have e2 : List.dropWhile isWS ((c :: j') ++ ['\n']) = (c :: j') ++ ['\n'] := by
    rw [List.cons_append, List.dropWhile_cons]
    simp [hc]
  rw [e2]
  have e3 : ((c :: j') ++ ['\n']).reverse = '\n' :: (c :: j').reverse := by simp
  rw [e3, List.dropWhile_cons, if_pos hnl, h2]
  simp

theorem twAll (p : Char → Bool) (l r : List Char) (h : ∀ c ∈ l, p c = true) :
    (l ++ r).takeWhile p = l ++ r.takeWhile p := by
  induction l with
  | nil => rfl
  | cons c l' ih =>
    have hc := h c (by simp)
    simp [List.takeWhile_cons, hc, ih (fun x hx => h x (by simp [hx]))]

theorem dwAll (p : Char → Bool) (l r : List Char) (h : ∀ c ∈ l, p c = true) :
    (l ++ r).dropWhile p = r.dropWhile p := by
  induction l with
  | nil => rfl
  | cons c l' ih =>
    have hc := h c (by simp)
    simp [List.dropWhile_cons, hc, ih (fun x hx => h x (by simp [hx]))]

/-! ## Lemmas: the delimited-block grammars on canonical encodings -/

theorem lazyBlockCapture_exact (openTag : List Char) (chd : Char) (ctl : List Char)
    (j : List Char) (hne : j ≠ [])
    (h1 : j.dropWhile isWS = j) (h2 : j.reverse.dropWhile isWS = j.reverse)
    (hj : ∀ c ∈ j, c ≠ chd) (hchd : chd ≠ '\n') :
    lazyBlockCapture openTag (chd :: ctl)
      (openTag ++ ('\n' :: (j ++ ('\n' :: (chd :: ctl))))) = some j := by
  have hmem : ∀ c ∈ '\n' :: (j ++ ['\n']), c ≠ chd := by
    intro c hc
    simp at hc
    rcases hc with hc | hc | hc
    · subst hc; exact fun he => hchd he.symm
    · exact hj c hc
    · subst hc; exact fun he => hchd he.symm
  have s1 : splitFirstSeq openTag
      (openTag ++ ('\n' :: (j ++ ('\n' :: (chd :: ctl))))) =
      some ([], '\n' :: (j ++ ('\n' :: (chd :: ctl)))) := by
    rw [splitFirst_of_starts _ _ (startsWith_self_append openTag _), List.drop_left]
  have s2 : splitFirstSeq (chd :: ctl) ('\n' :: (j ++ ('\n' :: (chd :: ctl)))) =
      some ('\n' :: (j ++ ['\n']), []) := by
    have eassoc : '\n' :: (j ++ ('\n' :: (chd :: ctl))) =
        ('\n' :: (j ++ ['\n'])) ++ (chd :: ctl) := by simp
    rw [eassoc, splitFirst_skip chd ctl _ _ hmem,
        splitFirst_of_starts _ _ (startsWith_self (chd :: ctl))]
    simp
  simp [lazyBlockCapture, s1, s2, trimWS_wrap j hne h1 h2]

theorem tryHandoffBlock_exact (openTag : List Char) (chd : Char) (ctl : List Char)
    (j : List Char) (obj : Json)
    (hparse : jparse j = some obj)
    (hk : truthyField obj "kind" = true) (hp : truthyField obj "payload" = true)
    (hne : j ≠ [])
    (h1 : j.dropWhile isWS = j) (h2 : j.reverse.dropWhile isWS = j.reverse)
    (hj : ∀ c ∈ j, c ≠ chd) (hchd : chd ≠ '\n') :
    tryHandoffBlock openTag (chd :: ctl)
      (openTag ++ ('\n' :: (j ++ ('\n' :: (chd :: ctl))))) = some obj := by
  have hcap := lazyBlockCapture_exact openTag chd ctl j hne h1 h2 hj hchd
  have hjE : j.isEmpty = false := by
    cases j with
    | nil => exact absurd rfl hne
    | cons _ _ => rfl
  simp [tryHandoffBlock, hcap, hjE, hparse, hk, hp]

theorem findTok_none (s : List Char) (h : ∀ c ∈ s, c ≠ '[') :
    findHandoffToken s = none := by
  induction s with
  | nil => rfl
  | cons c rest ih =>
    have hc : c ≠ '[' := h c (by simp)
    have h1 : startsWithSeq (toL "[[HANDOFF:") (c :: rest) = false := by
      rw [show toL "[[HANDOFF:" = '[' :: toL "[HANDOFF:" from rfl]
      simp [startsWithSeq]
      intro h'
      exact absurd h'.symm hc
    simp only [findHandoffToken, h1, Bool.false_eq_true, if_false]
    exact ih (fun x hx => h x (by simp [hx]))

/-! ## Claim C5 — the four handoff encodings -/

/-- Claim C5, counterexample: one logical handoff content, encoded as the
keyword fenced block (format 1) and as a generically-tagged fenced block
(format 2).  The part_000 extractor recovers the record from format 1 but
returns nothing at all for format 2 — its regexes only know
```` ```handoff ````, `<handoff>` and `[[HANDOFF:...]]` — so the four formats
do **not** all yield logically equal records. -/
theorem claim_C5_counterexample :
    extractHandoff_p0 (enc1 (toL "\x7b\"kind\":\"order\",\"payload\":\x7b\"qty\":2\x7d\x7d")) =
      some (Json.obj [("kind", Json.str "order"),
                      ("payload", Json.obj [("qty", Json.num 2)])]) ∧
    extractHandoff_p0 (enc2 (toL "\x7b\"handoff\":\"order\",\"payload\":\x7b\"qty\":2\x7d\x7d")) =
      none := by
  constructor <;> rfl

/-- Claim C5 (amended): for the part_000 extractor, the keyword fenced block,
the `<handoff>` tag pair and the base64 token encodings of one serialized
content all yield the *same* parsed record, while the generically-tagged
fenced block encoding of that content yields none.  Hypotheses: the content
parses to a record with truthy `kind` and `payload`, is nonempty, trimmed,
and free of backtick / angle-bracket / square-bracket characters; the base64
text is a nonempty run of class characters decoding to the content. -/
theorem claim_C5_three_formats_agree (j : List Char) (obj : Json) (b64 : List Char)
    (hparse : jparse j = some obj)
    (hk : truthyField obj "kind" = true) (hp : truthyField obj "payload" = true)
    (hne : j ≠ []) (hj1 : '`' ∉ j) (hj2 : '<' ∉ j) (hj3 : '[' ∉ j)
    (hw1 : j.dropWhile isWS = j) (hw2 : j.reverse.dropWhile isWS = j.reverse)
    (hbne : b64 ≠ []) (hbcl : ∀ c ∈ b64, isB64Char c = true)
    (hdec : decodeB64Str b64 = some j) :
    extractHandoff_p0 (enc1 j) = some obj ∧
    extractHandoff_p0 (enc3 j) = some obj ∧
    extractHandoff_p0 (enc4 b64) = some obj ∧
    extractHandoff_p0 (enc2 j) = none := by
  have hjt : ∀ c ∈ j, c ≠ '`' := fun c hc he => hj1 (he ▸ hc)
  have hjl : ∀ c ∈ j, c ≠ '<' := fun c hc he => hj2 (he ▸ hc)
  refine ⟨?_, ?_, ?_, ?_⟩
  · -- format 1
    have e1 : enc1 j = toL "```handoff" ++ ('\n' :: (j ++ ('\n' :: ('`' :: ['`', '`'])))) := by
      simp [enc1, fence]
    have hM1 : tryHandoffBlock (toL "```handoff") fence (enc1 j) = some obj := by
      rw [show fence = '`' :: ['`', '`'] from rfl, e1]
      exact tryHandoffBlock_exact (toL "```handoff") '`' ['`', '`'] j obj
        hparse hk hp hne hw1 hw2 hjt (by decide)
    have hns : (enc1 j).isEmpty = false := by rfl
    simp [extractHandoff_p0, hns, hM1]
  · -- format 3
    have e3 : enc3 j = toL "<handoff>" ++ ('\n' :: (j ++ ('\n' :: ('<' :: toL "/handoff>")))) := by
      simp [enc3]
      rfl
    have h3t : ∀ c ∈ enc3 j, c ≠ '`' := by
      intro c hc he
      subst he
      rw [e3] at hc
      simp +decide [toL] at hc
      exact hj1 hc
    have hM1n : tryHandoffBlock (toL "```handoff") fence (enc3 j) = none := by
      have hsp : splitFirstSeq (toL "```handoff") (enc3 j) = none := by
        rw [show toL "```handoff" = '`' :: toL "``handoff" from rfl]
        exact splitFirst_none_of_skip _ _ _ h3t
      simp [tryHandoffBlock, lazyBlockCapture, hsp]
    have hM2 : tryHandoffBlock (toL "<handoff>") (toL "</handoff>") (enc3 j) = some obj := by
      rw [show toL "</handoff>" = '<' :: toL "/handoff>" from rfl, e3]
      exact tryHandoffBlock_exact (toL "<handoff>") '<' (toL "/handoff>") j obj
        hparse hk hp hne hw1 hw2 hjl (by decide)
    have hns : (enc3 j).isEmpty = false := by rfl
    simp [extractHandoff_p0, hns, hM1n, hM2]
  · -- format 4
    have e4 : enc4 b64 = toL "[[HANDOFF:" ++ (b64 ++ (']' :: [']'])) := by
      simp [enc4]
      rfl
    have h4t : ∀ c ∈ enc4 b64, c ≠ '`' := by
      intro c hc he
      subst he
      rw [e4] at hc
      simp +decide [toL] at hc
      exact absurd (hbcl _ hc) (by decide)
    have h4l : ∀ c ∈ enc4 b64, c ≠ '<' := by
      intro c hc he
      subst he
      rw [e4] at hc
      simp +decide [toL] at hc
      exact absurd (hbcl _ hc) (by decide)
    have hM1n : tryHandoffBlock (toL "```handoff") fence (enc4 b64) = none := by
      have hsp : splitFirstSeq (toL "```handoff") (enc4 b64) = none := by
        rw [show toL "```handoff" = '`' :: toL "``handoff" from rfl]
        exact splitFirst_none_of_skip _ _ _ h4t
      simp [tryHandoffBlock, lazyBlockCapture, hsp]
    have hM2n : tryHandoffBlock (toL "<handoff>") (toL "</handoff>") (enc4 b64) = none := by
      have hsp : splitFirstSeq (toL "<handoff>") (enc4 b64) = none := by
        rw [show toL "<handoff>" = '<' :: toL "handoff>" from rfl]
        exact splitFirst_none_of_skip _ _ _ h4l
      simp [tryHandoffBlock, lazyBlockCapture, hsp]
    have hbcl' : ∀ c ∈ b64, isB64Char c = true := hbcl
    have hM3 : findHandoffToken (enc4 b64) = some b64 := by
      have e4c : enc4 b64 =
          '[' :: '[' :: 'H' :: 'A' :: 'N' :: 'D' :: 'O' :: 'F' :: 'F' :: ':' ::
            (b64 ++ (']' :: [']'])) := by
        rw [e4]; rfl
      rw [e4c]
      have hsw : startsWithSeq (toL "[[HANDOFF:")
          ('[' :: '[' :: 'H' :: 'A' :: 'N' :: 'D' :: 'O' :: 'F' :: 'F' :: ':' ::
            (b64 ++ (']' :: [']']))) = true := by
        rw [show ('[' :: '[' :: 'H' :: 'A' :: 'N' :: 'D' :: 'O' :: 'F' :: 'F' :: ':' ::
            (b64 ++ (']' :: [']']))) = toL "[[HANDOFF:" ++ (b64 ++ (']' :: [']'])) from rfl]
        exact startsWith_self_append _ _
      simp only [findHandoffToken, hsw, if_true, List.drop_succ_cons, List.drop_zero]
      rw [twAll isB64Char b64 _ hbcl', dwAll isB64Char b64 _ hbcl']
      have hbE : b64.isEmpty = false := by
        cases b64 with
        | nil => exact absurd rfl hbne
        | cons _ _ => rfl
      have ht : List.takeWhile isB64Char (']' :: [']']) = [] := by decide
      have hd2 : List.dropWhile isB64Char (']' :: [']']) = ']' :: [']'] := by decide
      have hsw2 : startsWithSeq (toL "]]") (']' :: [']']) = true := by decide
      rw [ht, hd2, List.append_nil]
      simp [hbE, hsw2]
    have hns : (enc4 b64).isEmpty = false := by
      rw [e4]; rfl
    simp [extractHandoff_p0, hns, hM1n, hM2n, hM3, hdec, hparse, hk, hp]
  · -- format 2 is rejected
    have e2 : enc2 j =
        '`' :: '`' :: '`' :: 'j' :: 's' :: 'o' :: 'n' :: '\n' :: (j ++ ('\n' :: fence)) := by
      simp [enc2, fence]
      rfl
    have hcstep : ∀ (c : Char) (rest : List Char),
        startsWithSeq ('`' :: toL "``handoff") (c :: rest) = false →
        containsSeq ('`' :: toL "``handoff") (c :: rest) =
          containsSeq ('`' :: toL "``handoff") rest := by
      intro c rest h
      simp [containsSeq, h]
    have hcont : containsSeq (toL "```handoff") (enc2 j) = false := by
      rw [show toL "```handoff" = '`' :: toL "``handoff" from rfl, e2]
      rw [hcstep _ _ (by rfl), hcstep _ _ (by rfl), hcstep _ _ (by rfl),
          hcstep _ _ (by rfl), hcstep _ _ (by rfl), hcstep _ _ (by rfl),
          hcstep _ _ (by rfl), hcstep _ _ (by rfl)]
      rw [contains_skip '`' _ j _ hjt]
      decide
    have hM1n : tryHandoffBlock (toL "```handoff") fence (enc2 j) = none := by
      simp [tryHandoffBlock, lazyBlockCapture, splitFirst_none_of_not_contains _ _ hcont]
    have h2l : ∀ c ∈ enc2 j, c ≠ '<' := by
      intro c hc he
      subst he
      rw [e2] at hc
      simp +decide [fence] at hc
      exact hj2 hc
    have h2b : ∀ c ∈ enc2 j, c ≠ '[' := by
      intro c hc he
      subst he
      rw [e2] at hc
      simp +decide [fence] at hc
      exact hj3 hc
    have hM2n : tryHandoffBlock (toL "<handoff>") (toL "</handoff>") (enc2 j) = none := by
      have hsp : splitFirstSeq (toL "<handoff>") (enc2 j) = none := by
        rw [show toL "<handoff>" = '<' :: toL "handoff>" from rfl]
        exact splitFirst_none_of_skip _ _ _ h2l
      simp [tryHandoffBlock, lazyBlockCapture, hsp]
    have hM3n : findHandoffToken (enc2 j) = none := findTok_none _ h2b
    have hns : (enc2 j).isEmpty = false := by rfl
    simp [extractHandoff_p0, hns, hM1n, hM2n, hM3n]

/-- Concrete instance of the amended C5 statement: the serialized content
`{"kind":"order","payload":{"qty":2}}` and its base64 encoding. -/
theorem claim_C5_witness :
    extractHandoff_p0 (enc1 (toL "\x7b\"kind\":\"order\",\"payload\":\x7b\"qty\":2\x7d\x7d")) =
      some (Json.obj [("kind", Json.str "order"),
                      ("payload", Json.obj [("qty", Json.num 2)])]) ∧
    extractHandoff_p0 (enc3 (toL "\x7b\"kind\":\"order\",\"payload\":\x7b\"qty\":2\x7d\x7d")) =
      some (Json.obj [("kind", Json.str "order"),
                      ("payload", Json.obj [("qty", Json.num 2)])]) ∧
    extractHandoff_p0 (enc4 (toL "eyJraW5kIjoib3JkZXIiLCJwYXlsb2FkIjp7InF0eSI6Mn19")) =
      some (Json.obj [("kind", Json.str "order"),
                      ("payload", Json.obj [("qty", Json.num 2)])]) ∧
    extractHandoff_p0 (enc2 (toL "\x7b\"kind\":\"order\",\"payload\":\x7b\"qty\":2\x7d\x7d")) =
      none :=
  claim_C5_three_formats_agree
    (toL "\x7b\"kind\":\"order\",\"payload\":\x7b\"qty\":2\x7d\x7d")
    (Json.obj [("kind", Json.str "order"), ("payload", Json.obj [("qty", Json.num 2)])])
    (toL "eyJraW5kIjoib3JkZXIiLCJwYXlsb2FkIjp7InF0eSI6Mn19")
    (by rfl) (by rfl) (by rfl) (by decide) (by decide) (by decide) (by decide)
    (by rfl) (by rfl) (by decide) (by decide) (by rfl)
